import Mathlib

/-
Verification of the v8 gateway server core (src/unnamed/part_000) against its
natural-language specification. The C code is shallowly embedded: pure control
flow becomes Lean functions, the outcomes of OS calls (read, accept, fork,
waitpid, sigprocmask) become explicit parameters, and the observable effects
of each routine become an explicit event trace.
-/

namespace V8Spec

/-- Request methods of the framework; the unknown method is the sentinel value
terminating a route table (V8_METHOD_UNKNOWN in the source). -/
inductive Method where
  | unknown
  | get
  | post
  | put
  | delete
deriving DecidableEq

/-- Response status codes; the core distinguishes only the not-found status
(V8_STATUS_NOT_FOUND), every other code is opaque. -/
inductive Status where
  | notFound
  | other (code : Nat)
deriving DecidableEq

/-- Response builder state: a status code and an accumulated body. -/
structure Response where
  status : Status
  body : List Char
deriving DecidableEq

/-- One route-table entry (struct V8Action of the source): a method, a stored
path (a NULL pointer modelled as none), an optional filter and the main
handler. Handlers are identified by numeric ids so that invocations can be
traced; R is the opaque request type inspected by filters. -/
structure V8Action (R : Type) where
  method : Method
  route : Option (List Char)
  filter : Option (R → Option Nat)
  handler : Nat

/-- Pointer arithmetic route + n on a NUL-terminated string, as used by
v8_request_handler (source line 368) to strip the configured base path from
the request path. The result is a well-defined C string exactly when n does
not exceed the string length; otherwise the offset lands beyond the
terminator and any comparison made through it is undefined, modelled as
none. -/
def cstrOffset (s : List Char) (n : Nat) : Option (List Char) :=
  if n ≤ s.length then some (s.drop n) else none

/-- Path part of the match condition at source lines 367 and 368:
actions[i].route != NULL and strcmp of the stripped path with the stored
route returns 0. -/
def routeMatch (r : Option (List Char)) (stripped : List Char) : Bool :=
  match r with
  | none => false
  | some p => decide (p = stripped)

/-- Full match condition of the route loop (source lines 366 to 368): the
entry method equals the request method and the stored route is a non-null
string equal to the stripped path. -/
def entryMatches {R : Type} (a : V8Action R) (method : Method)
    (stripped : List Char) : Bool :=
  decide (a.method = method) && routeMatch a.route stripped

/-- Identifies which call site invoked a handler: the filter-substituted
handler or the main handler of route entry i, together with the handler
id that ran. -/
inductive CallSite where
  | viaFilter (i : Nat) (hid : Nat)
  | mainHandler (i : Nat) (hid : Nat)
deriving DecidableEq

/-- Log messages emitted by the worker-side code, by identity. -/
inductive LMsg where
  | noRead
  | reqReceived
  | notFound
  | unblockFail
deriving DecidableEq

/-- Observable events of the worker-side code (v8_child_exec and
v8_request_handler), listed in program order by the embedding. -/
inductive Ev where
  | closeFd (fd : Nat)
  | destroyDispatcher
  | sigprocmaskUnblock (ok : Bool)
  | logError (m : LMsg)
  | logWarn (m : LMsg)
  | logDebug (m : LMsg)
  | readFd (fd : Nat) (ok : Bool)
  | appInitCall
  | filterCall (i : Nat)
  | handlerCall (site : CallSite)
  | setStatus (s : Status)
  | sendOn (fd : Nat)
  | exited (code : Int)
deriving DecidableEq

/-- Body of the matched branch of the route loop (source lines 370 to 381):
when the entry has a filter it is invoked with the request; a non-null
filter result is invoked in place of the main handler, otherwise the main
handler runs. Returns the call site chosen and the events emitted. -/
def dispatchEntry {R : Type} (a : V8Action R) (req : R) (i : Nat) :
    CallSite × List Ev :=
  match a.filter with
  | some f =>
    match f req with
    | some fh =>
      (CallSite.viaFilter i fh,
       [Ev.filterCall i, Ev.handlerCall (CallSite.viaFilter i fh)])
    | none =>
      (CallSite.mainHandler i a.handler,
       [Ev.filterCall i, Ev.handlerCall (CallSite.mainHandler i a.handler)])
  | none =>
    (CallSite.mainHandler i a.handler,
     [Ev.handlerCall (CallSite.mainHandler i a.handler)])

/-- Route-table scan of v8_request_handler (source lines 364 to 383): walk
the table from position i until the sentinel entry with the unknown method,
select the first entry matching the request method and the stripped path,
and dispatch through dispatchEntry. Returns the call site chosen, none when
the sentinel was reached first, together with the events emitted. The empty
list behaves like the sentinel: the C code requires a sentinel-terminated
table. -/
def routeScan {R : Type} (req : R) (method : Method) (stripped : List Char) :
    List (V8Action R) → Nat → Option CallSite × List Ev
  | [], _ => (none, [])
  | a :: rest, i =>
    if a.method = Method.unknown then (none, [])
    else if entryMatches a method stripped = true then
      (some (dispatchEntry a req i).1, (dispatchEntry a req i).2)
    else routeScan req method stripped rest (i + 1)

/-- Index of the route entry whose handler, main or filter-substituted, was
selected by the scan. -/
def selIndex : Option CallSite → Option Nat
  | none => none
  | some (CallSite.viaFilter i _) => some i
  | some (CallSite.mainHandler i _) => some i

/-- Entries the scan can inspect: the prefix of the table before the first
sentinel entry. -/
def beforeSentinel {R : Type} : List (V8Action R) → List (V8Action R)
  | [] => []
  | a :: rest =>
    if a.method = Method.unknown then [] else a :: beforeSentinel rest

/-- Routing as performed from the raw request path: the stripped path is
obtained by the unchecked pointer offset route + base_size of source line
368; the result is none when that offset leaves the string. -/
def routeFromRaw {R : Type} (acts : List (V8Action R)) (req : R)
    (method : Method) (path : List Char) (baseSize : Nat) :
    Option (Option CallSite × List Ev) :=
  (cstrOffset path baseSize).map (fun s => routeScan req method s acts 0)

/-- Response produced by the selected call site: the handler that ran, main
or filter-substituted, transforms the fresh response; when no entry was
selected the response keeps its body and gets the not-found status (source
line 388). -/
def respFor {R : Type} (hsem : Nat → R → Response → Response) (req : R)
    (resp0 : Response) : Option CallSite → Response
  | some (CallSite.viaFilter _ h) => hsem h req resp0
  | some (CallSite.mainHandler _ h) => hsem h req resp0
  | none => { resp0 with status := Status.notFound }

/-- Events of the no-match branch after the loop (source lines 385 to 389):
when the sentinel was reached the warning is logged and the response status
is set to not-found; nothing when a call site was selected. -/
def tailEvsFor : Option CallSite → List Ev
  | some _ => []
  | none => [Ev.logWarn LMsg.notFound, Ev.setStatus Status.notFound]

/-- v8_request_handler (source lines 337 to 403) as a function of the
collaborator outcomes: readOk is whether v8_scgi_request_read succeeded,
method and path are the parsed request line, hasAppInit is whether an
application-data initializer was configured, hsem gives each handler id its
effect on the response, and resp0 is the freshly created response. Returns
none when the base offset leaves the request path (undefined pointer
arithmetic); otherwise the C return value, the event trace, and the
response that was sent (none when no response was sent). -/
def v8_request_handler {R : Type} (hsem : Nat → R → Response → Response)
    (acts : List (V8Action R)) (baseSize : Nat) (sock : Nat) (readOk : Bool)
    (req : R) (method : Method) (path : List Char) (hasAppInit : Bool)
    (resp0 : Response) : Option (Int × List Ev × Option Response) :=
  if readOk = false then
    some (-1, [Ev.readFd sock false, Ev.logWarn LMsg.noRead, Ev.closeFd sock],
          none)
  else
    match cstrOffset path baseSize with
    | none => none
    | some stripped =>
      some (0,
            Ev.readFd sock true ::
              ((if hasAppInit then [Ev.appInitCall] else []) ++
               Ev.logDebug LMsg.reqReceived ::
                 ((routeScan req method stripped acts 0).2 ++
                  tailEvsFor (routeScan req method stripped acts 0).1 ++
                  [Ev.sendOn sock, Ev.closeFd sock])),
            some (respFor hsem req resp0
              (routeScan req method stripped acts 0).1))

/-- v8_child_exec (source lines 304 to 335): the worker closes the parent
signal channel descriptor and the listening socket descriptor, destroys the
dispatcher, unblocks the signal mask installed by the parent, and exits
with the return value of v8_request_handler; unblockOk is whether
sigprocmask succeeded, on failure the worker exits with -1 at once.
Returns the worker event trace, none on the undefined base offset. -/
def v8_child_exec {R : Type} (hsem : Nat → R → Response → Response)
    (acts : List (V8Action R)) (baseSize sigfd sockfd sock : Nat)
    (unblockOk readOk : Bool) (req : R) (method : Method) (path : List Char)
    (hasAppInit : Bool) (resp0 : Response) : Option (List Ev) :=
  if unblockOk = false then
    some ([Ev.closeFd sigfd, Ev.closeFd sockfd, Ev.destroyDispatcher] ++
          [Ev.sigprocmaskUnblock false, Ev.logError LMsg.unblockFail,
           Ev.exited (-1)])
  else
    match v8_request_handler hsem acts baseSize sock readOk req method path
        hasAppInit resp0 with
    | none => none
    | some (ret, evs, _) =>
      some ([Ev.closeFd sigfd, Ev.closeFd sockfd, Ev.destroyDispatcher] ++
            Ev.sigprocmaskUnblock true :: (evs ++ [Ev.exited ret]))

/-- Whether an event touches a parent-only resource: one of the two parent
file descriptors or the dispatcher instance. -/
def usesParentRes (sigfd sockfd : Nat) : Ev → Bool
  | Ev.closeFd f => decide (f = sigfd) || decide (f = sockfd)
  | Ev.readFd f _ => decide (f = sigfd) || decide (f = sockfd)
  | Ev.sendOn f => decide (f = sigfd) || decide (f = sockfd)
  | Ev.destroyDispatcher => true
  | _ => false

/-- Observable events of the connection acceptor and of the parent branch of
v8_fork. -/
inductive CEv where
  | accepted (c : Nat)
  | forkCalled (c : Nat)
  | logWorkerFail
  | closedConn (c : Nat)
  | logForkFail
deriving DecidableEq

/-- Parent branch of v8_fork (source lines 280 to 302): fork, log on fork
failure, and in all cases close the parent copy of the accepted socket;
forkOk tells whether fork succeeded. Returns the C return value and the
events of the parent process. -/
def v8_fork (forkOk : Bool) (c : Nat) : Int × List CEv :=
  if forkOk then (0, [CEv.forkCalled c, CEv.closedConn c])
  else (-1, [CEv.forkCalled c, CEv.logWorkerFail, CEv.closedConn c])

/-- v8_handle_connection (source lines 431 to 455): repeatedly accept until
the call reports would-block, forking one worker per accepted connection
and logging each fork failure. pending is the kernel accept queue, drained
head first; forkOk is an oracle giving the fork outcome per connection. -/
def v8_handle_connection (forkOk : Nat → Bool) : List Nat → List CEv
  | [] => []
  | c :: rest =>
    CEv.accepted c ::
      ((v8_fork (forkOk c) c).2 ++
       (if (v8_fork (forkOk c) c).1 ≠ 0 then [CEv.logForkFail] else []) ++
       v8_handle_connection forkOk rest)

/-- Connection id of an accept event. -/
def acceptedConn : CEv → Option Nat
  | CEv.accepted c => some c
  | _ => none

/-- Connection id of a parent-side close event. -/
def closedConnOf : CEv → Option Nat
  | CEv.closedConn c => some c
  | _ => none

/-- Connection id of a fork call event. -/
def forkConn : CEv → Option Nat
  | CEv.forkCalled c => some c
  | _ => none

/-- Wait status of a reaped child, mirroring the WIFEXITED, WIFSIGNALED,
WIFSTOPPED and WIFCONTINUED views of the raw status word. -/
inductive WStatus where
  | exited (code : Nat)
  | signaled (sig : Nat)
  | stopped (sig : Nat)
  | continued
deriving DecidableEq

/-- A child whose state change is queued for the parent: its process id and
its wait status. Real process ids are positive. -/
structure Zombie where
  pid : Nat
  stat : WStatus
deriving DecidableEq

/-- waitpid with WNOHANG on any child: reap the next queued child if any;
with none queued it returns 0 while live children remain and -1 (ECHILD)
otherwise. Returns the return value, the status word written (none when
nothing was written) and the remaining queue. -/
def waitpidNohang (live : Bool) (zs : List Zombie) :
    Int × Option WStatus × List Zombie :=
  match zs with
  | [] => (if live then 0 else -1, none, [])
  | z :: rest => ((z.pid : Int), some z.stat, rest)

/-- Reap loop of the SIGCHLD branch, source line 494: the comparison with 0
binds tighter than the assignment, so the pid variable receives the boolean
value of the comparison and is therefore 0 whenever the loop exits. st
carries the current content of the status variable, none while it is still
uninitialized. Returns the final pid value, the final status and the queue
of children left unreaped. -/
def reapLoop (live : Bool) (st : Option WStatus) :
    List Zombie → Int × Option WStatus × List Zombie
  | [] =>
    ((if (waitpidNohang live []).1 > 0 then 1 else 0), st, [])
  | z :: rest =>
    if (z.pid : Int) > 0 then reapLoop live (some z.stat) rest
    else (0, some z.stat, rest)

/-- Log records the SIGCHLD branch can emit, by identity. -/
inductive SLog where
  | debugChildSignaled
  | errorWaitFailed
  | debugNoChange
  | childExited (pid : Int) (code : Nat)
  | childSignaled (pid : Int) (sig : Nat)
  | childStopped (pid : Int) (sig : Nat)
  | childContinued (pid : Int)
deriving DecidableEq

/-- SIGCHLD case of v8_handle_signal (source lines 492 to 524): log the
debug record, run the reap loop, then report according to the final values
of the pid and status variables. live is whether unterminated children
remain; zs is the queue of children whose state change is pending. Returns
the log entries emitted and the queue of children still unreaped. -/
def v8_handle_sigchld (live : Bool) (zs : List Zombie) :
    List SLog × List Zombie :=
  let pid := (reapLoop live none zs).1
  let st := (reapLoop live none zs).2.1
  let rest := (reapLoop live none zs).2.2
  let tail :=
    if pid < 0 then [SLog.errorWaitFailed]
    else if pid = 0 then [SLog.debugNoChange]
    else
      match st with
      | some (WStatus.exited c) => [SLog.childExited pid c]
      | some (WStatus.signaled s) => [SLog.childSignaled pid s]
      | some (WStatus.stopped s) => [SLog.childStopped pid s]
      | some WStatus.continued => [SLog.childContinued pid]
      | none => []
  (SLog.debugChildSignaled :: tail, rest)

theorem entryMatches_eq_true {R : Type} {a : V8Action R} {method : Method}
    {stripped : List Char} (h : entryMatches a method stripped = true) :
    a.method = method ∧ routeMatch a.route stripped = true := by
  unfold entryMatches at h
  rcases (Bool.and_eq_true _ _).mp h with ⟨h1, h2⟩
  exact ⟨of_decide_eq_true h1, h2⟩

theorem selIndex_dispatchEntry {R : Type} (a : V8Action R) (req : R)
    (i : Nat) : selIndex (some (dispatchEntry a req i).1) = some i := by
  cases hf : a.filter with
  | none => simp [dispatchEntry, hf, selIndex]
  | some f =>
    cases hfr : f req with
    | none => simp [dispatchEntry, hf, hfr, selIndex]
    | some fh => simp [dispatchEntry, hf, hfr, selIndex]

theorem routeScan_firstMatch {R : Type} (req : R) (method : Method)
    (stripped : List Char) (a : V8Action R) (post : List (V8Action R))
    (hm : method ≠ Method.unknown)
    (ha : entryMatches a method stripped = true) :
    ∀ (pre : List (V8Action R)) (k : Nat),
      (∀ b ∈ pre, entryMatches b method stripped = false ∧
        b.method ≠ Method.unknown) →
      routeScan req method stripped (pre ++ a :: post) k =
        (some (dispatchEntry a req (k + pre.length)).1,
         (dispatchEntry a req (k + pre.length)).2) := by
  intro pre
  induction pre with
  | nil =>
    intro k _
    have hmeth : a.method = method := (entryMatches_eq_true ha).1
    simp only [List.nil_append, routeScan, List.length_nil, Nat.add_zero]
    rw [if_neg (by rw [hmeth]; exact hm), if_pos ha]
  | cons b pre ih =>
    intro k h
    have hb := h b (List.mem_cons_self b pre)
    simp only [List.cons_append, routeScan]
    rw [if_neg hb.2, if_neg (by simp [hb.1])]
    simp only [List.append_eq]
    rw [ih (k + 1) (fun x hx => h x (List.mem_cons_of_mem b hx))]
    have hidx : k + 1 + pre.length = k + (b :: pre).length := by
      simp only [List.length_cons]; omega
    rw [hidx]

theorem routeScan_sel_decomp {R : Type} (req : R) (method : Method)
    (stripped : List Char) :
    ∀ (acts : List (V8Action R)) (k : Nat) (cs : CallSite),
      (routeScan req method stripped acts k).1 = some cs →
      ∃ pre a post, acts = pre ++ a :: post ∧
        selIndex (some cs) = some (k + pre.length) ∧
        entryMatches a method stripped = true := by
  intro acts
  induction acts with
  | nil => intro k cs h; simp [routeScan] at h
  | cons a rest ih =>
    intro k cs h
    by_cases hu : a.method = Method.unknown
    · simp [routeScan, hu] at h
    · by_cases hma : entryMatches a method stripped = true
      · refine ⟨[], a, rest, rfl, ?_, hma⟩
        simp only [routeScan, if_neg hu, if_pos hma] at h
        have hcs : cs = (dispatchEntry a req k).1 := by
          simpa using h.symm
        rw [hcs, selIndex_dispatchEntry]
        simp
      · simp only [routeScan, if_neg hu, if_neg hma] at h
        obtain ⟨pre, b, post, hdec, hsel, hb⟩ := ih (k + 1) cs h
        refine ⟨a :: pre, b, post, by rw [List.cons_append, hdec], ?_, hb⟩
        rw [hsel]
        simp only [List.length_cons, Option.some.injEq]
        omega

/-- C4: for every route table and request the router scans the table in
declaration order and selects the first entry whose method equals the
request method and whose stored path equals the stripped path; the chosen
call site and events come from that first matching entry, its index is the
number of entries before it, and entries after the first match never
influence the result, so a later duplicate entry is never selected.
Determinism over repeated calls is definitional since routeScan is a pure
function of the table, the method and the path. -/
theorem c4_router_first_match {R : Type} (req : R) (method : Method)
    (stripped : List Char) (pre post : List (V8Action R)) (a : V8Action R)
    (hm : method ≠ Method.unknown)
    (ha : entryMatches a method stripped = true)
    (hpre : ∀ b ∈ pre, entryMatches b method stripped = false ∧
      b.method ≠ Method.unknown) :
    routeScan req method stripped (pre ++ a :: post) 0 =
      (some (dispatchEntry a req pre.length).1,
       (dispatchEntry a req pre.length).2) ∧
    selIndex (routeScan req method stripped (pre ++ a :: post) 0).1 =
      some pre.length ∧
    ∀ post2, routeScan req method stripped (pre ++ a :: post2) 0 =
      routeScan req method stripped (pre ++ a :: post) 0 := by
  have h1 := routeScan_firstMatch req method stripped a post hm ha pre 0 hpre
  rw [Nat.zero_add] at h1
  refine ⟨h1, ?_, ?_⟩
  · rw [h1]; exact selIndex_dispatchEntry a req pre.length
  · intro post2
    have h2 := routeScan_firstMatch req method stripped a post2 hm ha pre 0 hpre
    rw [Nat.zero_add] at h2
    rw [h1, h2]

/-- C5: when the first matching entry has a filter, the filter decides the
handler: a non-empty filter result is invoked and the main handler call
site of that entry never runs, while an empty filter result falls through
to the main handler; in both cases routing stops at that entry. -/
theorem c5_filter_short_circuit {R : Type} (req : R) (method : Method)
    (stripped : List Char) (pre post : List (V8Action R)) (a : V8Action R)
    (f : R → Option Nat)
    (hm : method ≠ Method.unknown)
    (ha : entryMatches a method stripped = true)
    (hpre : ∀ b ∈ pre, entryMatches b method stripped = false ∧
      b.method ≠ Method.unknown)
    (hf : a.filter = some f) :
    (∀ fh, f req = some fh →
      routeScan req method stripped (pre ++ a :: post) 0 =
        (some (CallSite.viaFilter pre.length fh),
         [Ev.filterCall pre.length,
          Ev.handlerCall (CallSite.viaFilter pre.length fh)]) ∧
      Ev.handlerCall (CallSite.mainHandler pre.length a.handler) ∉
        (routeScan req method stripped (pre ++ a :: post) 0).2) ∧
    (f req = none →
      routeScan req method stripped (pre ++ a :: post) 0 =
        (some (CallSite.mainHandler pre.length a.handler),
         [Ev.filterCall pre.length,
          Ev.handlerCall (CallSite.mainHandler pre.length a.handler)])) := by
  have h1 := routeScan_firstMatch req method stripped a post hm ha pre 0 hpre
  rw [Nat.zero_add] at h1
  constructor
  · intro fh hfh
    have hd : dispatchEntry a req pre.length =
        (CallSite.viaFilter pre.length fh,
         [Ev.filterCall pre.length,
          Ev.handlerCall (CallSite.viaFilter pre.length fh)]) := by
      simp only [dispatchEntry, hf, hfh]
    constructor
    · rw [h1, hd]
    · rw [h1, hd]; simp
  · intro hfe
    have hd : dispatchEntry a req pre.length =
        (CallSite.mainHandler pre.length a.handler,
         [Ev.filterCall pre.length,
          Ev.handlerCall (CallSite.mainHandler pre.length a.handler)]) := by
      simp only [dispatchEntry, hf, hfe]
    rw [h1, hd]

/-- C10: a route entry whose stored path string is null is never selected by
the router, even when its method equals the request method: the scan index
of the selected entry never points at it. -/
theorem c10_null_route_never_selected {R : Type} (req : R) (method : Method)
    (stripped : List Char) (pre post : List (V8Action R)) (a : V8Action R)
    (hnull : a.route = none) :
    selIndex (routeScan req method stripped (pre ++ a :: post) 0).1 ≠
      some pre.length := by
  intro hsel
  rcases hres : (routeScan req method stripped (pre ++ a :: post) 0).1
    with _ | cs
  · rw [hres] at hsel; simp [selIndex] at hsel
  · rw [hres] at hsel
    obtain ⟨pre2, b, post2, hdec, hsel2, hb⟩ :=
      routeScan_sel_decomp req method stripped _ 0 cs hres
    have hlen : pre.length = pre2.length := by
      have := hsel.symm.trans hsel2
      simp only [Option.some.injEq] at this
      omega
    have hinj := List.append_inj hdec hlen
    have hab : a = b := (List.cons.injEq _ _ _ _ |>.mp hinj.2).1
    rw [← hab] at hb
    have hroute := (entryMatches_eq_true hb).2
    rw [hnull] at hroute
    simp [routeMatch] at hroute

theorem routeScan_noMatch {R : Type} (req : R) (method : Method)
    (stripped : List Char) :
    ∀ (acts : List (V8Action R)) (k : Nat),
      (∀ b ∈ beforeSentinel acts, entryMatches b method stripped = false) →
      routeScan req method stripped acts k = (none, []) := by
  intro acts
  induction acts with
  | nil => intro k _; rfl
  | cons a rest ih =>
    intro k h
    by_cases hu : a.method = Method.unknown
    · simp [routeScan, hu]
    · have hbs : beforeSentinel (a :: rest) = a :: beforeSentinel rest := by
        simp [beforeSentinel, hu]
      rw [hbs] at h
      have hma := h a (List.mem_cons_self a _)
      simp only [routeScan]
      rw [if_neg hu, if_neg (by simp [hma])]
      exact ih (k + 1) (fun b hb => h b (List.mem_cons_of_mem a hb))

/-- C6: a request whose method and stripped path match no route entry before
the sentinel invokes no handler and no filter; the response is set to the
not-found status with an unchanged empty body, and the status is set before
the response is sent. -/
theorem c6_not_found {R : Type} (hsem : Nat → R → Response → Response)
    (acts : List (V8Action R)) (baseSize sock : Nat) (req : R)
    (method : Method) (path : List Char) (hasAppInit : Bool)
    (resp0 : Response)
    (hlen : baseSize ≤ path.length)
    (hnm : ∀ b ∈ beforeSentinel acts,
      entryMatches b method (path.drop baseSize) = false) :
    ∃ evs,
      v8_request_handler hsem acts baseSize sock true req method path
          hasAppInit resp0 =
        some (0, evs, some { status := Status.notFound, body := resp0.body }) ∧
      (∀ cs, Ev.handlerCall cs ∉ evs) ∧
      (∀ i, Ev.filterCall i ∉ evs) ∧
      ∃ l1 l2, evs = l1 ++ Ev.setStatus Status.notFound :: l2 ∧
        (∀ fd, Ev.sendOn fd ∉ l1) ∧ Ev.sendOn sock ∈ l2 := by
  have hoff : cstrOffset path baseSize = some (path.drop baseSize) := by
    simp [cstrOffset, hlen]
  have hscan := routeScan_noMatch req method (path.drop baseSize) acts 0 hnm
  cases hasAppInit with
  | false =>
    refine ⟨[Ev.readFd sock true, Ev.logDebug LMsg.reqReceived,
             Ev.logWarn LMsg.notFound, Ev.setStatus Status.notFound,
             Ev.sendOn sock, Ev.closeFd sock], ?_, ?_, ?_, ?_⟩
    · simp [v8_request_handler, hoff, hscan, respFor, tailEvsFor]
    · intro cs; simp
    · intro i; simp
    · exact ⟨[Ev.readFd sock true, Ev.logDebug LMsg.reqReceived,
              Ev.logWarn LMsg.notFound], [Ev.sendOn sock, Ev.closeFd sock],
             by simp, fun fd => by simp, by simp⟩
  | true =>
    refine ⟨[Ev.readFd sock true, Ev.appInitCall,
             Ev.logDebug LMsg.reqReceived, Ev.logWarn LMsg.notFound,
             Ev.setStatus Status.notFound, Ev.sendOn sock,
             Ev.closeFd sock], ?_, ?_, ?_, ?_⟩
    · simp [v8_request_handler, hoff, hscan, respFor, tailEvsFor]
    · intro cs; simp
    · intro i; simp
    · exact ⟨[Ev.readFd sock true, Ev.appInitCall,
              Ev.logDebug LMsg.reqReceived, Ev.logWarn LMsg.notFound],
             [Ev.sendOn sock, Ev.closeFd sock],
             by simp, fun fd => by simp, by simp⟩

/-- C9: the router strips the base path by offsetting base_size bytes into
the request path with no length check; whenever the path has at least
base_size characters the offset is the suffix of the path after dropping
its first base_size characters, routing from the raw path equals routing on
that suffix, and for any offset beyond the path length the comparison is
undefined. -/
theorem c9_base_offset {R : Type} (acts : List (V8Action R)) (req : R)
    (method : Method) (path : List Char) (n : Nat) (h : n ≤ path.length) :
    cstrOffset path n = some (path.drop n) ∧
    routeFromRaw acts req method path n =
      some (routeScan req method (path.drop n) acts 0) ∧
    ∀ m, path.length < m → cstrOffset path m = none := by
  refine ⟨by simp [cstrOffset, h], by simp [routeFromRaw, cstrOffset, h], ?_⟩
  intro m hm
  unfold cstrOffset
  rw [if_neg (by omega)]

theorem routeScan_events {R : Type} (req : R) (method : Method)
    (stripped : List Char) :
    ∀ (acts : List (V8Action R)) (k : Nat) (e : Ev),
      e ∈ (routeScan req method stripped acts k).2 →
      (∃ i, e = Ev.filterCall i) ∨ ∃ cs, e = Ev.handlerCall cs := by
  intro acts
  induction acts with
  | nil => intro k e he; simp [routeScan] at he
  | cons a rest ih =>
    intro k e he
    by_cases hu : a.method = Method.unknown
    · simp [routeScan, hu] at he
    · by_cases hma : entryMatches a method stripped = true
      · simp only [routeScan] at he
        rw [if_neg hu, if_pos hma] at he
        cases hf : a.filter with
        | none =>
          simp [dispatchEntry, hf] at he
          exact Or.inr ⟨_, he⟩
        | some f =>
          cases hfr : f req with
          | none =>
            simp [dispatchEntry, hf, hfr] at he
            rcases he with he | he
            · exact Or.inl ⟨_, he⟩
            · exact Or.inr ⟨_, he⟩
          | some fh =>
            simp [dispatchEntry, hf, hfr] at he
            rcases he with he | he
            · exact Or.inl ⟨_, he⟩
            · exact Or.inr ⟨_, he⟩
      · simp only [routeScan] at he
        rw [if_neg hu, if_neg (by simp [hma])] at he
        exact ih (k + 1) e he

theorem v8_request_handler_local {R : Type}
    (hsem : Nat → R → Response → Response) (acts : List (V8Action R))
    (baseSize sock : Nat) (readOk : Bool) (req : R) (method : Method)
    (path : List Char) (hasAppInit : Bool) (resp0 : Response)
    (ret : Int) (evs : List Ev) (r : Option Response)
    (sigfd sockfd : Nat) (hsig : sock ≠ sigfd) (hsock : sock ≠ sockfd)
    (h : v8_request_handler hsem acts baseSize sock readOk req method path
        hasAppInit resp0 = some (ret, evs, r)) :
    ∀ e ∈ evs, usesParentRes sigfd sockfd e = false := by
  intro e he
  cases readOk with
  | false =>
    unfold v8_request_handler at h
    rw [if_pos rfl] at h
    simp only [Option.some.injEq, Prod.mk.injEq] at h
    obtain ⟨-, h2, -⟩ := h
    rw [← h2] at he
    simp only [List.mem_cons, List.not_mem_nil, or_false] at he
    rcases he with rfl | rfl | rfl <;>
      simp [usesParentRes, hsig, hsock]
  | true =>
    unfold v8_request_handler at h
    rw [if_neg (by simp)] at h
    cases hoff : cstrOffset path baseSize with
    | none => rw [hoff] at h; simp at h
    | some stripped =>
      rw [hoff] at h
      simp only [Option.some.injEq, Prod.mk.injEq] at h
      obtain ⟨-, h2, -⟩ := h
      rw [← h2] at he
      rcases List.mem_cons.mp he with rfl | he1
      · simp [usesParentRes, hsig, hsock]
      rcases List.mem_append.mp he1 with he2 | he3
      · have hai : e = Ev.appInitCall := by
          cases hasAppInit with
          | false => simp at he2
          | true => simpa using he2
        rw [hai]; rfl
      rcases List.mem_cons.mp he3 with rfl | he4
      · rfl
      rcases List.mem_append.mp he4 with he5 | he6
      · rcases List.mem_append.mp he5 with he7 | he8
        · rcases routeScan_events req method stripped acts 0 e he7 with
            ⟨i, rfl⟩ | ⟨cs, rfl⟩ <;> rfl
        · have : e = Ev.logWarn LMsg.notFound ∨
              e = Ev.setStatus Status.notFound := by
            cases hsel : (routeScan req method stripped acts 0).1 with
            | none => rw [hsel] at he8; simpa [tailEvsFor] using he8
            | some cs0 => rw [hsel] at he8; simp [tailEvsFor] at he8
          rcases this with rfl | rfl <;> rfl
      · rcases List.mem_cons.mp he6 with rfl | he7
        · simp [usesParentRes, hsig, hsock]
        rcases List.mem_cons.mp he7 with rfl | he8
        · simp [usesParentRes, hsig, hsock]
        · simp at he8

/-- C7: in every worker the parent signal channel descriptor and the parent
listening socket descriptor are closed and the dispatcher destroyed, and
the signal mask restored, before anything else happens, in particular
before the protocol read; every later event, the protocol read included,
touches neither parent descriptor nor the dispatcher. -/
theorem c7_worker_handoff {R : Type} (hsem : Nat → R → Response → Response)
    (acts : List (V8Action R)) (baseSize sigfd sockfd sock : Nat)
    (unblockOk readOk : Bool) (req : R) (method : Method) (path : List Char)
    (hasAppInit : Bool) (resp0 : Response) (tr : List Ev)
    (hsig : sock ≠ sigfd) (hsock : sock ≠ sockfd)
    (htr : v8_child_exec hsem acts baseSize sigfd sockfd sock unblockOk
      readOk req method path hasAppInit resp0 = some tr) :
    ∃ rest, tr = Ev.closeFd sigfd :: Ev.closeFd sockfd ::
        Ev.destroyDispatcher :: Ev.sigprocmaskUnblock unblockOk :: rest ∧
      (∀ e ∈ rest, usesParentRes sigfd sockfd e = false) ∧
      ∀ fd b, Ev.readFd fd b ∈ tr → Ev.readFd fd b ∈ rest := by
  cases unblockOk with
  | false =>
    unfold v8_child_exec at htr
    rw [if_pos rfl] at htr
    simp only [Option.some.injEq] at htr
    subst htr
    refine ⟨[Ev.logError LMsg.unblockFail, Ev.exited (-1)], by simp,
      ?_, ?_⟩
    · intro e he
      rcases List.mem_cons.mp he with rfl | he1
      · rfl
      rcases List.mem_cons.mp he1 with rfl | he2
      · rfl
      · simp at he2
    · intro fd b hmem
      simp at hmem
  | true =>
    unfold v8_child_exec at htr
    rw [if_neg (by simp)] at htr
    cases hreq : v8_request_handler hsem acts baseSize sock readOk req
        method path hasAppInit resp0 with
    | none => rw [hreq] at htr; simp at htr
    | some out =>
      obtain ⟨ret, evs, r⟩ := out
      rw [hreq] at htr
      simp only [Option.some.injEq] at htr
      subst htr
      refine ⟨evs ++ [Ev.exited ret], by simp, ?_, ?_⟩
      · intro e he
        rcases List.mem_append.mp he with he1 | he1
        · exact v8_request_handler_local hsem acts baseSize sock readOk req
            method path hasAppInit resp0 ret evs r sigfd sockfd hsig hsock
            hreq e he1
        · rcases List.mem_singleton.mp he1 with rfl
          rfl
      · intro fd b hmem
        simp only [List.cons_append, List.nil_append, List.mem_cons] at hmem
        rcases hmem with h1 | h1 | h1 | h1 | h1
        · exact absurd h1 (by simp)
        · exact absurd h1 (by simp)
        · exact absurd h1 (by simp)
        · exact absurd h1 (by simp)
        · exact h1

/-- C8: a worker whose request read fails logs the failure, sends no
response, invokes no handler and no application-data initializer, and its
process exits with the non-zero status -1; a worker whose request read
succeeds completes the request and exits with status 0. -/
theorem c8_exit_codes {R : Type} (hsem : Nat → R → Response → Response)
    (acts : List (V8Action R)) (baseSize sigfd sockfd sock : Nat) (req : R)
    (method : Method) (path : List Char) (hasAppInit : Bool)
    (resp0 : Response) :
    (v8_request_handler hsem acts baseSize sock false req method path
        hasAppInit resp0 =
      some (-1, [Ev.readFd sock false, Ev.logWarn LMsg.noRead,
                 Ev.closeFd sock], none)) ∧
    ((-1 : Int) ≠ 0) ∧
    (∀ fd, Ev.sendOn fd ∉ [Ev.readFd sock false, Ev.logWarn LMsg.noRead,
      Ev.closeFd sock]) ∧
    (∀ cs, Ev.handlerCall cs ∉ [Ev.readFd sock false, Ev.logWarn LMsg.noRead,
      Ev.closeFd sock]) ∧
    (Ev.appInitCall ∉ [Ev.readFd sock false, Ev.logWarn LMsg.noRead,
      Ev.closeFd sock]) ∧
    (v8_child_exec hsem acts baseSize sigfd sockfd sock true false req
        method path hasAppInit resp0 =
      some [Ev.closeFd sigfd, Ev.closeFd sockfd, Ev.destroyDispatcher,
            Ev.sigprocmaskUnblock true, Ev.readFd sock false,
            Ev.logWarn LMsg.noRead, Ev.closeFd sock, Ev.exited (-1)]) ∧
    (baseSize ≤ path.length →
      ∃ evs resp,
        v8_request_handler hsem acts baseSize sock true req method path
            hasAppInit resp0 = some (0, evs, some resp) ∧
        ∃ l, v8_child_exec hsem acts baseSize sigfd sockfd sock true true
            req method path hasAppInit resp0 =
          some (l ++ [Ev.exited 0])) := by
  have hfail : v8_request_handler hsem acts baseSize sock false req method
      path hasAppInit resp0 =
      some (-1, [Ev.readFd sock false, Ev.logWarn LMsg.noRead,
                 Ev.closeFd sock], none) := by
    unfold v8_request_handler
    rw [if_pos rfl]
  refine ⟨hfail, by decide, fun fd => by simp, fun cs => by simp, by simp,
    ?_, ?_⟩
  · unfold v8_child_exec
    rw [if_neg (by simp), hfail]
    rfl
  · intro hlen
    have hoff : cstrOffset path baseSize = some (path.drop baseSize) := by
      simp [cstrOffset, hlen]
    obtain ⟨evs, resp, hreq⟩ : ∃ evs resp,
        v8_request_handler hsem acts baseSize sock true req method path
          hasAppInit resp0 = some (0, evs, some resp) := by
      refine ⟨Ev.readFd sock true ::
          ((if hasAppInit then [Ev.appInitCall] else []) ++
           Ev.logDebug LMsg.reqReceived ::
             ((routeScan req method (path.drop baseSize) acts 0).2 ++
              tailEvsFor (routeScan req method (path.drop baseSize)
                acts 0).1 ++
              [Ev.sendOn sock, Ev.closeFd sock])),
        respFor hsem req resp0
          (routeScan req method (path.drop baseSize) acts 0).1, ?_⟩
      unfold v8_request_handler
      rw [if_neg (by simp), hoff]
    refine ⟨evs, resp, hreq, ?_⟩
    refine ⟨[Ev.closeFd sigfd, Ev.closeFd sockfd, Ev.destroyDispatcher,
             Ev.sigprocmaskUnblock true] ++ evs, ?_⟩
    unfold v8_child_exec
    rw [if_neg (by simp), hreq]
    simp

/-- C3: one readiness notification on the listening socket drains the whole
accept queue: with N pending connections there are exactly N accept events
and N fork calls, one per pending connection in order, and the parent
closes its copy of every accepted socket whether the fork succeeded or
failed. -/
theorem c3_drain_accept (forkOk : Nat → Bool) (pending : List Nat) :
    (v8_handle_connection forkOk pending).filterMap acceptedConn =
      pending ∧
    (v8_handle_connection forkOk pending).filterMap forkConn = pending ∧
    (v8_handle_connection forkOk pending).filterMap closedConnOf =
      pending := by
  induction pending with
  | nil => exact ⟨rfl, rfl, rfl⟩
  | cons c rest ih =>
    obtain ⟨ih1, ih2, ih3⟩ := ih
    cases hfo : forkOk c <;>
      refine ⟨?_, ?_, ?_⟩ <;>
        simp [v8_handle_connection, v8_fork, hfo, acceptedConn, forkConn,
          closedConnOf, List.filterMap_append, ih1, ih2, ih3]

theorem reapLoop_drains (live : Bool) :
    ∀ (zs : List Zombie) (st : Option WStatus),
      (∀ z ∈ zs, 0 < z.pid) →
      (reapLoop live st zs).1 = 0 ∧ (reapLoop live st zs).2.2 = [] := by
  intro zs
  induction zs with
  | nil =>
    intro st _
    cases live <;> exact ⟨rfl, rfl⟩
  | cons z rest ih =>
    intro st h
    have hz : ((z.pid : Int) > 0) := by
      exact_mod_cast h z (List.mem_cons_self z rest)
    simp only [reapLoop]
    rw [if_pos hz]
    exact ih (some z.stat) (fun x hx => h x (List.mem_cons_of_mem z hx))

/-- C1: however many children exited between two signal notifications, one
run of the SIGCHLD branch reaps them all: the loop repeats the non-blocking
waitpid until no more children have changed state, and the queue of
children left unreaped is empty, so no zombie remains. -/
theorem c1_reap_all (live : Bool) (zs : List Zombie)
    (hpid : ∀ z ∈ zs, 0 < z.pid) :
    (v8_handle_sigchld live zs).2 = [] := by
  simp only [v8_handle_sigchld]
  exact (reapLoop_drains live zs none hpid).2

/-- C2 evidence: with a single child of pid 7 that exited with code 0
queued, the SIGCHLD branch reaps it but the entire log consists of the two
generic records; no entry carries the child pid or its exit status. The
assignment at source line 494 stores the boolean comparison result in the
pid variable, which is therefore 0 whenever the loop exits, so the
per-child reporting branches of lines 506 to 521 are unreachable. -/
theorem c2_per_child_logging_dead :
    v8_handle_sigchld true [Zombie.mk 7 (WStatus.exited 0)] =
      ([SLog.debugChildSignaled, SLog.debugNoChange], []) := by decide

/-- Concrete route entry with a stored path, used to evaluate the routing
theorems on inputs. -/
def wAct1 : V8Action Nat :=
  { method := Method.get, route := some ['p'], filter := none, handler := 1 }

/-- Concrete route entry whose stored path is null. -/
def wActNull : V8Action Nat :=
  { method := Method.get, route := none, filter := none, handler := 2 }

/-- Concrete filter returning handler 9 for request 0 and nothing
otherwise. -/
def wFilter : Nat → Option Nat := fun r => if r = 0 then some 9 else none

/-- Concrete route entry guarded by wFilter. -/
def wActFilt : V8Action Nat :=
  { method := Method.get, route := some ['q'], filter := some wFilter,
    handler := 3 }

/-- Concrete sentinel entry terminating the tables. -/
def wSentinel : V8Action Nat :=
  { method := Method.unknown, route := none, filter := none, handler := 0 }

/-- Identity handler semantics used to evaluate the worker theorems. -/
def hsem0 : Nat → Nat → Response → Response := fun _ _ r => r

/-- Fresh response used to evaluate the worker theorems. -/
def resp0w : Response := { status := Status.other 200, body := [] }

theorem c1_reap_all_witness :
    (∀ z ∈ [Zombie.mk 5 (WStatus.exited 0), Zombie.mk 9 WStatus.continued],
      0 < z.pid) ∧
    (v8_handle_sigchld true
      [Zombie.mk 5 (WStatus.exited 0), Zombie.mk 9 WStatus.continued]).2 =
      [] :=
  ⟨by decide, c1_reap_all true _ (by decide)⟩

theorem c4_router_first_match_witness :
    entryMatches wAct1 Method.get ['p'] = true ∧
    routeScan 0 Method.get ['p'] ([wActNull] ++ wAct1 :: [wSentinel]) 0 =
      (some (dispatchEntry wAct1 0 [wActNull].length).1,
       (dispatchEntry wAct1 0 [wActNull].length).2) ∧
    selIndex (routeScan 0 Method.get ['p']
      ([wActNull] ++ wAct1 :: [wSentinel]) 0).1 = some 1 := by
  have h := c4_router_first_match 0 Method.get ['p'] [wActNull] [wSentinel]
    wAct1 (by decide) (by decide) (by decide)
  exact ⟨by decide, h.1, h.2.1⟩

theorem c5_filter_short_circuit_witness :
    wFilter 0 = some 9 ∧
    routeScan 0 Method.get ['q'] ([] ++ wActFilt :: [wSentinel]) 0 =
      (some (CallSite.viaFilter 0 9),
       [Ev.filterCall 0, Ev.handlerCall (CallSite.viaFilter 0 9)]) ∧
    Ev.handlerCall (CallSite.mainHandler 0 wActFilt.handler) ∉
      (routeScan 0 Method.get ['q'] ([] ++ wActFilt :: [wSentinel]) 0).2 := by
  have h := c5_filter_short_circuit 0 Method.get ['q'] [] [wSentinel]
    wActFilt wFilter (by decide) (by decide) (by decide) rfl
  have h2 := h.1 9 (by decide)
  exact ⟨by decide, h2.1, h2.2⟩

theorem c6_not_found_witness :
    (∀ b ∈ beforeSentinel [wAct1, wSentinel],
      entryMatches b Method.get (['x'].drop 0) = false) ∧
    ∃ evs,
      v8_request_handler hsem0 [wAct1, wSentinel] 0 12 true 0 Method.get
          ['x'] false resp0w =
        some (0, evs, some { status := Status.notFound,
                             body := resp0w.body }) ∧
      (∀ cs, Ev.handlerCall cs ∉ evs) ∧
      (∀ i, Ev.filterCall i ∉ evs) ∧
      ∃ l1 l2, evs = l1 ++ Ev.setStatus Status.notFound :: l2 ∧
        (∀ fd, Ev.sendOn fd ∉ l1) ∧ Ev.sendOn 12 ∈ l2 :=
  ⟨by decide, c6_not_found hsem0 [wAct1, wSentinel] 0 12 0 Method.get ['x']
    false resp0w (by decide) (by decide)⟩

theorem c7_worker_handoff_witness :
    ∃ rest,
      [Ev.closeFd 10, Ev.closeFd 11, Ev.destroyDispatcher,
       Ev.sigprocmaskUnblock true, Ev.readFd 12 true,
       Ev.logDebug LMsg.reqReceived, Ev.logWarn LMsg.notFound,
       Ev.setStatus Status.notFound, Ev.sendOn 12, Ev.closeFd 12,
       Ev.exited 0] =
        Ev.closeFd 10 :: Ev.closeFd 11 :: Ev.destroyDispatcher ::
          Ev.sigprocmaskUnblock true :: rest ∧
      (∀ e ∈ rest, usesParentRes 10 11 e = false) ∧
      ∀ fd b, Ev.readFd fd b ∈
          [Ev.closeFd 10, Ev.closeFd 11, Ev.destroyDispatcher,
           Ev.sigprocmaskUnblock true, Ev.readFd 12 true,
           Ev.logDebug LMsg.reqReceived, Ev.logWarn LMsg.notFound,
           Ev.setStatus Status.notFound, Ev.sendOn 12, Ev.closeFd 12,
           Ev.exited 0] →
        Ev.readFd fd b ∈ rest :=
  c7_worker_handoff hsem0 [wSentinel] 0 10 11 12 true true 0 Method.get []
    false resp0w _ (by decide) (by decide) (by decide)

theorem c8_exit_codes_witness :
    (v8_request_handler hsem0 [wSentinel] 0 12 false 0 Method.get [] false
        resp0w =
      some (-1, [Ev.readFd 12 false, Ev.logWarn LMsg.noRead,
                 Ev.closeFd 12], none)) ∧
    ∃ evs resp,
      v8_request_handler hsem0 [wSentinel] 0 12 true 0 Method.get [] false
          resp0w = some (0, evs, some resp) ∧
      ∃ l, v8_child_exec hsem0 [wSentinel] 0 10 11 12 true true 0
          Method.get [] false resp0w = some (l ++ [Ev.exited 0]) := by
  have h := c8_exit_codes hsem0 [wSentinel] 0 10 11 12 0 Method.get []
    false resp0w
  exact ⟨h.1, h.2.2.2.2.2.2 (by decide)⟩

theorem c9_base_offset_witness :
    (1 : Nat) ≤ (['a', 'b'] : List Char).length ∧
    cstrOffset ['a', 'b'] 1 = some ['b'] ∧
    routeFromRaw ([wSentinel] : List (V8Action Nat)) 0 Method.get
        ['a', 'b'] 1 =
      some (routeScan 0 Method.get ['b'] [wSentinel] 0) :=
  ⟨by decide,
   (c9_base_offset [wSentinel] 0 Method.get ['a', 'b'] 1 (by decide)).1,
   (c9_base_offset [wSentinel] 0 Method.get ['a', 'b'] 1 (by decide)).2.1⟩

theorem c10_null_route_never_selected_witness :
    selIndex (routeScan 0 Method.get ['p']
      ([] ++ wActNull :: [wSentinel]) 0).1 ≠ some 0 :=
  c10_null_route_never_selected 0 Method.get ['p'] [] [wSentinel] wActNull
    rfl

end V8Spec
